import Mathlib

/-!
Verification of the keelboat repository against its specification.

The development shallowly embeds the pure computational parts of the three
Python source files:

* `src/design/main.py` — hull cross-section generation: the longitudinal
  shape table, its linear interpolation, the U-shaped section point list,
  the inner (offset) section dimensions, and the station layout.
* `src/lines/__main__.py` — lines-plan generation: waterline slice levels,
  per-shape safe slicing, the view projection, and the SVG export geometry
  (extent guards and the scale-bar bucket).
* `src/parameter/compute.py` — derived-parameter computation over a
  Python-dict-like association list.

Python floats are modelled as exact rationals (`ℚ`); none of the verified
properties depends on floating-point rounding.  The two transcendental
operations (`math.sin` in the section generator and the float power
`** (2/3)` in the parameter computation) are abstracted as function
parameters of the embedding; every property proved states explicitly which
facts about them it uses.
-/

namespace Keelboat

/-! ## src/design/main.py -/

/-- Embedding of `hull_shape_table` (design/main.py, lines 155-166):
explicit `(frac, beam_frac, depth_frac)` control points, `frac` running 0
(stern) to 1 (bow).  The decimal literals of the source are written as exact
rationals. -/
def hull_shape_table : List (ℚ × ℚ × ℚ) :=
  [ (0,     3/5,   7/10),
    (3/20,  3/4,   17/20),
    (3/10,  9/10,  19/20),
    (9/20,  1,     1),
    (11/20, 1,     1),
    (7/10,  4/5,   9/10),
    (17/20, 9/20,  13/20),
    (19/20, 3/20,  2/5),
    (1,     1/50,  1/5) ]

/-- Linear interpolation between two control points, exactly the expression
computed inside the loop body of `interp_table`:
`t = (frac - f0) / (f1 - f0)`, result `(b0 + t*(b1-b0), d0 + t*(d1-d0))`. -/
def lerpAt (e0 e1 : ℚ × ℚ × ℚ) (frac : ℚ) : ℚ × ℚ :=
  let t := (frac - e0.1) / (e1.1 - e0.1)
  (e0.2.1 + t * (e1.2.1 - e0.2.1), e0.2.2 + t * (e1.2.2 - e0.2.2))

/-- Embedding of the `for j in range(len(hull_shape_table) - 1)` loop of
`interp_table` (design/main.py, lines 175-180): walk consecutive pairs of
the table; on the first pair with `f0 <= frac <= f1` return the linear
interpolation; `none` models falling off the end of the loop. -/
def interpLoop : List (ℚ × ℚ × ℚ) → ℚ → Option (ℚ × ℚ)
  | e0 :: e1 :: rest, frac =>
      if e0.1 ≤ frac ∧ frac ≤ e1.1 then some (lerpAt e0 e1 frac)
      else interpLoop (e1 :: rest) frac
  | _, _ => none

/-- Embedding of `interp_table` (design/main.py, lines 169-181): clamp below
the first and above the last table entry, otherwise run the loop; the
trailing `return hull_shape_table[-1][1], hull_shape_table[-1][2]` fallback
is the `Option.getD` default. -/
def interp_table (frac : ℚ) : ℚ × ℚ :=
  let first := hull_shape_table.headD (0, 0, 0)
  let last := hull_shape_table.getLastD (0, 0, 0)
  if frac ≤ first.1 then (first.2.1, first.2.2)
  else if last.1 ≤ frac then (last.2.1, last.2.2)
  else (interpLoop hull_shape_table frac).getD (last.2.1, last.2.2)

/-- Embedding of `num_sections = max(num_sections, 11)`
(design/main.py, line 185). -/
def num_sections (hull_sections : ℕ) : ℕ := max hull_sections 11

/-- Station fraction `frac = i / (num_sections - 1)` (design/main.py,
line 189). -/
def station_frac (n i : ℕ) : ℚ := (i : ℚ) / ((n : ℚ) - 1)

/-- Station longitudinal position `y_pos = -half_length + frac * hull_length`
(design/main.py, line 190), with `half_length = hull_length / 2`. -/
def station_y (hull_length : ℚ) (n i : ℕ) : ℚ :=
  -(hull_length / 2) + station_frac n i * hull_length

/-- Station half-width `hw = max(half_beam * bf, hull_thickness * 2)`
(design/main.py, line 192), with `half_beam = hull_beam / 2`. -/
def station_halfwidth (hull_beam hull_thickness : ℚ) (frac : ℚ) : ℚ :=
  max (hull_beam / 2 * (interp_table frac).1) (hull_thickness * 2)

/-- Station half-depth `hd = max(hull_depth * df, hull_thickness * 2)`
(design/main.py, line 193). -/
def station_halfdepth (hull_depth hull_thickness : ℚ) (frac : ℚ) : ℚ :=
  max (hull_depth * (interp_table frac).2) (hull_thickness * 2)

/-- Embedding of `hull_section_points(hw, hd)` (design/main.py,
lines 106-123).  The starboard half is
`(hw * sin(t*pi/2), -hd*(1-t))` for `t = i/12`, `i = 0..12`; the port half
mirrors `stbd[1:]` reversed with `x` negated, and the result is
`port ++ stbd`.  The transcendental factor `math.sin(t * math.pi / 2)` is
abstracted as the parameter `s : ℚ → ℚ` (so `s t` stands for
`sin (t * π/2)`); the only fact about `s` any theorem uses is `s 0 = 0`. -/
def hull_section_points (s : ℚ → ℚ) (hw hd : ℚ) : List (ℚ × ℚ) :=
  let n_pts : ℕ := 12
  let stbd := (List.range (n_pts + 1)).map
    (fun i => (hw * s ((i : ℚ) / (n_pts : ℚ)), -hd * (1 - (i : ℚ) / (n_pts : ℚ))))
  let port := ((stbd.drop 1).reverse).map (fun q => (-q.1, q.2))
  port ++ stbd

/-- Embedding of the inner-section dimensions of `hull_section_wire_inner`
(design/main.py, lines 147-148):
`inner_hw = max(hw - thickness, thickness)` and
`inner_hd = max(hd - thickness, thickness)`. -/
def hull_section_inner (hw hd thickness : ℚ) : ℚ × ℚ :=
  (max (hw - thickness) thickness, max (hd - thickness) thickness)

/-! ## src/lines/__main__.py -/

/-- A 3-D point, as used by the FreeCAD vectors the lines-plan code
consumes (`p.x`, `p.y`, `p.z`). -/
structure Pt where
  x : ℚ
  y : ℚ
  z : ℚ
deriving DecidableEq

/-- An edge is modelled by its discretized point list (the code only ever
uses `edge.discretize(50)`); a wire is its list of edges. -/
abbrev Edge := List Pt

/-- A wire: a list of edges. -/
abbrev Wire := List Edge

/-- Embedding of the inner `map_point` projection of `export_wires_to_svg`
(lines/__main__.py, lines 144-153): a fixed table of named views; any
unknown view name falls through to `(p.x, -p.y)`. -/
def map_point (view : String) (p : Pt) : ℚ × ℚ :=
  if view = "XZ" then (p.x, -p.z)
  else if view = "XY" then (p.x, -p.y)
  else if view = "YX" then (p.y, -p.x)
  else if view = "YZ" then (p.y, -p.z)
  else (p.x, -p.y)

/-- Embedding of `get_waterline_positions` (lines/__main__.py,
lines 70-105) as a function of the parameter values it reads
(`hull_depth` is read by the source but never used).  Builds the named
`(name, z)` levels and sorts them by `z` ascending (Python's stable
`list.sort`, modelled by the stable `List.mergeSort`). -/
def get_waterline_positions (hull_depth deck_level draft freeboard : ℚ) : List (String × ℚ) :=
  let positions : List (String × ℚ) := [("waterline", 1)]
  let positions := positions ++
    [("wl_below_1", -1 * (draft / 3)), ("wl_below_2", -2 * (draft / 3))]
  let positions := positions ++
    (if 1 * (freeboard / 3) < deck_level then [("wl_above_1", 1 * (freeboard / 3))] else []) ++
    (if 2 * (freeboard / 3) < deck_level then [("wl_above_2", 2 * (freeboard / 3))] else [])
  let positions := positions ++ [("deck", deck_level - 2)]
  positions.mergeSort (fun a b => a.2 ≤ b.2)

/-- Embedding of `slice_shapes_safely` (lines/__main__.py, lines 108-118).
Shapes are abstract (`σ`); the kernel call `shape.slice(normal, position)`
is abstracted as `slice : σ → Except String (List ω)`, where `Except.error`
models the raised exception (the warning print is not modelled).  The loop
accumulates the successful per-shape wire lists in shape order; the `if
wires:` truthiness test of the source is the `isEmpty` guard. -/
def slice_shapes_safely {σ ω : Type} (slice : σ → Except String (List ω))
    (shapes : List σ) : List ω :=
  shapes.foldl
    (fun all_wires shape =>
      match slice shape with
      | Except.ok wires => if wires.isEmpty then all_wires else all_wires ++ wires
      | Except.error _ => all_wires)
    []

/-- The point-collection loop of `export_wires_to_svg` (lines/__main__.py,
lines 133-139): every edge of every wire contributes its discretized
points, filtered by `p.z <= clip_z` when a clip is given. -/
def all_retained_points (clip_z : Option ℚ) (wires : List Wire) : List Pt :=
  wires.foldl
    (fun acc wire =>
      wire.foldl
        (fun acc2 points =>
          match clip_z with
          | some c => acc2 ++ points.filter (fun p => p.z ≤ c)
          | none => acc2 ++ points)
        acc)
    []

/-- Embedding of the scale-bar step table of `export_wires_to_svg`
(lines/__main__.py, lines 201-209): keyed on
`max_extent_mm = max(extent_x, extent_y)`. -/
def scale_bar_bucket (max_extent_mm : ℚ) : ℚ × String :=
  if 5000 < max_extent_mm then (1000, "1 m")
  else if 2000 < max_extent_mm then (500, "0.5 m")
  else if 500 < max_extent_mm then (200, "200 mm")
  else (100, "100 mm")

/-- The geometric quantities computed by `export_wires_to_svg` before it
writes the SVG file. -/
structure SvgGeom where
  extent_x : ℚ
  extent_y : ℚ
  scale : ℚ
  width : ℚ
  height : ℚ
  bar_length_mm : ℚ
  bar_label : String
deriving DecidableEq

/-- Embedding of `export_wires_to_svg` (lines/__main__.py, lines 121-234),
up to the geometry it derives.  `none` models the early `return` with no
output file written (lines 141-142); `some g` models writing an SVG whose
layout is governed by `g`.  The SVG path text itself is not modelled.
The min/max folds start from the first mapped point, matching Python's
`min`/`max` over a nonempty sequence. -/
def export_wires_to_svg (view : String) (target_size : ℚ) (clip_z : Option ℚ)
    (wires : List Wire) : Option SvgGeom :=
  match all_retained_points clip_z wires with
  | [] => none
  | p :: ps =>
    let mapped := (p :: ps).map (map_point view)
    let m0 := map_point view p
    let min_x := (mapped.map Prod.fst).foldl min m0.1
    let max_x := (mapped.map Prod.fst).foldl max m0.1
    let min_y := (mapped.map Prod.snd).foldl min m0.2
    let max_y := (mapped.map Prod.snd).foldl max m0.2
    let extent_x := max (max_x - min_x) (1/10)
    let extent_y := max (max_y - min_y) (1/10)
    let scale := target_size / max extent_x extent_y
    let margin : ℚ := 40
    let scale_bar_height : ℚ := 30
    let width := extent_x * scale + 2 * margin
    let height := extent_y * scale + 2 * margin + scale_bar_height
    let bar := scale_bar_bucket (max extent_x extent_y)
    some ⟨extent_x, extent_y, scale, width, height, bar.1, bar.2⟩

/-! ## src/parameter/compute.py -/

/-- A Python dict with string keys and numeric values, modelled as an
association list in insertion order. -/
abbrev Dict := List (String × ℚ)

/-- Python `d[k]` as a total lookup: the value at the first matching key. -/
def dget (d : Dict) (k : String) : Option ℚ :=
  (d.find? (fun p => p.1 = k)).map Prod.snd

/-- Python `d[k] = v`: replace the value in place if the key exists
(keys of a dict are unique), otherwise append the new binding. -/
def dset (d : Dict) (k : String) (v : ℚ) : Dict :=
  if d.any (fun p => p.1 = k) then
    d.map (fun p => if p.1 = k then (k, v) else p)
  else d ++ [(k, v)]

/-- Python `k in d`. -/
def dmem (d : Dict) (k : String) : Bool :=
  d.any (fun p => p.1 = k)

/-- Embedding of `compute_derived` (parameter/compute.py, lines 7-64).

The embedding is a pure function: `params = base.copy()` is the starting
value `base` of the `dset` chain, and the caller's dictionary is untouched
by construction.  The float power `** (2/3)` used on the last line is
abstracted as the parameter `rpow23` (so `rpow23 x` stands for
`x ** (2/3)`).  `none` models an uncaught Python exception: a `KeyError`
from a missing base parameter, the `ZeroDivisionError` from
`keel_span / keel_mean_chord` when the mean chord is zero, or the
`ZeroDivisionError` on the last line when the divisor
`(displacement/1000) ** (2/3)` is zero.  All other operations are total.
The `dset` order follows the assignment order of the source. -/
def compute_derived (rpow23 : ℚ → ℚ) (base : Dict) : Option Dict :=
  match dget base "keel_root_chord", dget base "keel_tip_chord",
        dget base "keel_span", dget base "keel_thickness_ratio",
        dget base "hull_depth", dget base "hull_beam",
        dget base "freeboard", dget base "lwl",
        dget base "mast_height", dget base "boom_length",
        dget base "hull_length", dget base "mast_position_from_bow",
        dget base "rudder_offset_from_stern" with
  | some keel_root, some keel_tip, some keel_span, some keel_thickness_ratio,
    some hull_depth, some hull_beam, some freeboard, some lwl,
    some mast_height, some boom_length, some hull_length,
    some mast_position_from_bow, some rudder_offset_from_stern =>
    let keel_mean_chord := (keel_root + keel_tip) / 2
    if keel_mean_chord = 0 then none
    else
    let keel_area_mm2 := keel_mean_chord * keel_span
    let keel_root_thickness := keel_root * keel_thickness_ratio
    let hull_waterline_beam := hull_beam * (85/100)
    let hull_draft := hull_depth - freeboard
    let displacement_estimate_kg :=
      (55/100) * (lwl / 1000) * (hull_waterline_beam / 1000) * (hull_draft / 1000) * 1025
    let sail_area_m2 := (1/2) * (mast_height / 1000) * (boom_length / 1000)
    let keel_ballast_kg_estimate :=
      (keel_area_mm2 * keel_root_thickness * (7/10)) / 1000000000 * 11340
    let params := dset base "keel_mean_chord" keel_mean_chord
    let params := dset params "keel_area_mm2" keel_area_mm2
    let params := dset params "keel_aspect_ratio" (keel_span / keel_mean_chord)
    let params := dset params "keel_root_thickness" keel_root_thickness
    let params := dset params "keel_tip_thickness" (keel_tip * keel_thickness_ratio)
    let params := dset params "hull_midship_depth" hull_depth
    let params := dset params "hull_waterline_beam" hull_waterline_beam
    let params := dset params "hull_draft" hull_draft
    let params := dset params "total_draft" (hull_draft + keel_span)
    let params := dset params "displacement_estimate_kg" displacement_estimate_kg
    let params := dset params "sail_area_m2" sail_area_m2
    let params := dset params "mast_y_position" (hull_length / 2 - mast_position_from_bow)
    let params := dset params "rudder_y_position" (-(hull_length / 2 - rudder_offset_from_stern))
    let params := dset params "keel_ballast_kg_estimate" keel_ballast_kg_estimate
    let params :=
      if 0 < displacement_estimate_kg then
        dset params "ballast_ratio" (keel_ballast_kg_estimate / displacement_estimate_kg)
      else params
    if rpow23 (displacement_estimate_kg / 1000) = 0 then none
    else
      some (dset params "sail_area_displacement_ratio"
        (sail_area_m2 / rpow23 (displacement_estimate_kg / 1000)))
  | _, _, _, _, _, _, _, _, _, _, _, _, _ => none

/-- The keys `compute_derived` adds or overwrites (every left-hand
`params[...] = ...` assignment of the source). -/
def derivedNames : List String :=
  [ "keel_mean_chord", "keel_area_mm2", "keel_aspect_ratio",
    "keel_root_thickness", "keel_tip_thickness", "hull_midship_depth",
    "hull_waterline_beam", "hull_draft", "total_draft",
    "displacement_estimate_kg", "sail_area_m2", "mast_y_position",
    "rudder_y_position", "keel_ballast_kg_estimate", "ballast_ratio",
    "sail_area_displacement_ratio" ]

/-- A concrete base-parameter dictionary holding the thirteen parameters
`compute_derived` reads. -/
def base_required : Dict :=
  [("keel_root_chord", 1000), ("keel_tip_chord", 600), ("keel_span", 1200),
   ("keel_thickness_ratio", 1/10), ("hull_depth", 900), ("hull_beam", 2200),
   ("freeboard", 600), ("lwl", 5600), ("mast_height", 8000), ("boom_length", 2500),
   ("hull_length", 6000), ("mast_position_from_bow", 2200),
   ("rudder_offset_from_stern", 300)]

/-- The same base dictionary with one extra entry whose key collides with a
derived name (`hull_draft`). -/
def base_with_hull_draft : Dict :=
  base_required ++ [("hull_draft", 12345)]

/-! ### Helper lemmas about the dictionary operations -/

/-- Lookup after `dset`: the set key reads back the new value, every other
key is unchanged. -/
theorem dget_dset (d : Dict) (k k' : String) (v : ℚ) :
    dget (dset d k v) k' = if k' = k then some v else dget d k' := by
  unfold dget dset
  cases hmem : d.any (fun p => decide (p.1 = k)) with
  | true =>
    simp only [hmem, if_true]
    rw [List.find?_map]
    by_cases hk : k' = k
    · subst hk
      have hpred : ((fun p : String × ℚ => decide (p.1 = k')) ∘
          (fun p : String × ℚ => if p.1 = k' then (k', v) else p)) =
          (fun p : String × ℚ => decide (p.1 = k')) := by
        funext q
        by_cases h : q.1 = k' <;> simp [h]
      rw [hpred, if_pos rfl]
      rw [List.any_eq_true] at hmem
      obtain ⟨x, hx, hpx⟩ := hmem
      have hs : (d.find? (fun p : String × ℚ => decide (p.1 = k'))).isSome = true :=
        List.find?_isSome.mpr ⟨x, hx, hpx⟩
      obtain ⟨q0, hq0⟩ := Option.isSome_iff_exists.mp hs
      have hq0k : q0.1 = k' := by simpa using List.find?_some hq0
      rw [hq0]
      simp [hq0k]
    · have hpred : ((fun p : String × ℚ => decide (p.1 = k')) ∘
          (fun p : String × ℚ => if p.1 = k then (k, v) else p)) =
          (fun p : String × ℚ => decide (p.1 = k')) := by
        funext q
        by_cases h : q.1 = k <;> simp [h, Ne.symm hk]
      rw [hpred, if_neg hk]
      cases hf : d.find? (fun p : String × ℚ => decide (p.1 = k')) with
      | none => simp
      | some q0 =>
        have hq0k : q0.1 = k' := by simpa using List.find?_some hf
        simp [hq0k, hk]
  | false =>
    simp only [hmem, Bool.false_eq_true, if_false]
    rw [List.find?_append]
    by_cases hk : k' = k
    · subst hk
      rw [List.any_eq_false] at hmem
      rw [List.find?_eq_none.mpr fun x hx => hmem x hx]
      simp [List.find?_cons]
    · have h1 : List.find? (fun p : String × ℚ => decide (p.1 = k')) [(k, v)] = none := by
        simp [List.find?_cons, Ne.symm hk]
      rw [h1, if_neg hk]
      simp

/-- Key membership agrees with lookup success. -/
theorem dmem_eq_isSome (d : Dict) (k : String) : dmem d k = (dget d k).isSome := by
  unfold dmem dget
  cases hf : d.find? (fun p : String × ℚ => decide (p.1 = k)) with
  | none =>
    rw [List.find?_eq_none] at hf
    rw [List.any_eq_false.mpr fun x hx => hf x hx]
    rfl
  | some q0 =>
    rw [List.any_eq_true.mpr ⟨q0, List.mem_of_find?_eq_some hf, List.find?_some hf⟩]
    rfl

/-- Membership after `dset`: the set key is present, other keys are as
before. -/
theorem dmem_dset (d : Dict) (k k' : String) (v : ℚ) :
    dmem (dset d k v) k' = if k' = k then true else dmem d k' := by
  rw [dmem_eq_isSome, dget_dset]
  by_cases hk : k' = k
  · simp [hk]
  · simp [hk, dmem_eq_isSome]

/-- With pairwise-distinct keys, a binding in the list is what lookup
returns. -/
theorem dget_eq_some_of_mem (d : Dict) (k : String) (v : ℚ)
    (hn : (d.map Prod.fst).Nodup) (h : (k, v) ∈ d) : dget d k = some v := by
  induction d with
  | nil => simp at h
  | cons a t ih =>
    rw [List.map_cons, List.nodup_cons] at hn
    rcases List.mem_cons.mp h with h1 | h1
    · obtain rfl : a = (k, v) := h1.symm
      simp [dget, List.find?_cons]
    · by_cases hak : a.1 = k
      · exact absurd (hak ▸ List.mem_map.mpr ⟨(k, v), h1, rfl⟩) hn.1
      · have ht := ih hn.2 h1
        unfold dget at ht ⊢
        rw [List.find?_cons]
        simpa [hak] using ht

/-- A key is present exactly when some value is bound to it. -/
theorem dmem_true_iff (d : Dict) (k : String) :
    dmem d k = true ↔ ∃ v, (k, v) ∈ d := by
  unfold dmem
  rw [List.any_eq_true]
  constructor
  · rintro ⟨x, hx, hpx⟩
    refine ⟨x.2, ?_⟩
    have hx1 : x.1 = k := by simpa using hpx
    rwa [← hx1]
  · rintro ⟨v, hv⟩
    exact ⟨(k, v), hv, by simp⟩

/-! ### Helper lemmas about the table interpolation -/

/-- One loop step that matches: if `f0 ≤ frac ≤ f1`, the loop returns the
interpolation of the leading pair. -/
theorem interpLoop_cons_pos (f0 b0 d0 f1 b1 d1 : ℚ) (rest : List (ℚ × ℚ × ℚ)) (frac : ℚ)
    (h0 : f0 ≤ frac) (h1 : frac ≤ f1) :
    interpLoop ((f0, b0, d0) :: (f1, b1, d1) :: rest) frac =
      some (lerpAt (f0, b0, d0) (f1, b1, d1) frac) := by
  rw [interpLoop, if_pos ⟨h0, h1⟩]

/-- One loop step that fails because `frac` lies beyond the pair: the loop
moves on to the tail. -/
theorem interpLoop_cons_skip (f0 b0 d0 f1 b1 d1 : ℚ) (rest : List (ℚ × ℚ × ℚ)) (frac : ℚ)
    (h : f1 < frac) :
    interpLoop ((f0, b0, d0) :: (f1, b1, d1) :: rest) frac =
      interpLoop ((f1, b1, d1) :: rest) frac := by
  rw [interpLoop, if_neg (fun hc => absurd hc.2 (not_le.mpr h))]

/-- Every `frac ∈ [0, 1]` lies in a consecutive interval of the table, and
the loop returns that interval's interpolation. -/
theorem interpLoop_bracket (frac : ℚ) (h0 : 0 ≤ frac) (h1 : frac ≤ 1) :
    ∃ j, ∃ e0 e1 : ℚ × ℚ × ℚ,
      hull_shape_table.getD j (0, 0, 0) = e0 ∧
      hull_shape_table.getD (j + 1) (0, 0, 0) = e1 ∧
      j + 1 < hull_shape_table.length ∧
      e0.1 ≤ frac ∧ frac ≤ e1.1 ∧ e0.1 < e1.1 ∧
      interpLoop hull_shape_table frac = some (lerpAt e0 e1 frac) := by
  simp only [hull_shape_table]
  rcases le_or_lt frac (3/20) with hb | ha1
  · exact ⟨0, _, _, rfl, rfl, by norm_num, h0, hb, by norm_num,
      interpLoop_cons_pos _ _ _ _ _ _ _ _ h0 hb⟩
  rcases le_or_lt frac (3/10) with hb | ha2
  · refine ⟨1, _, _, rfl, rfl, by norm_num, le_of_lt ha1, hb, by norm_num, ?_⟩
    rw [interpLoop_cons_skip _ _ _ _ _ _ _ _ ha1]
    exact interpLoop_cons_pos _ _ _ _ _ _ _ _ (le_of_lt ha1) hb
  rcases le_or_lt frac (9/20) with hb | ha3
  · refine ⟨2, _, _, rfl, rfl, by norm_num, le_of_lt ha2, hb, by norm_num, ?_⟩
    rw [interpLoop_cons_skip _ _ _ _ _ _ _ _ (show (3:ℚ)/20 < frac by linarith),
        interpLoop_cons_skip _ _ _ _ _ _ _ _ ha2]
    exact interpLoop_cons_pos _ _ _ _ _ _ _ _ (le_of_lt ha2) hb
  rcases le_or_lt frac (11/20) with hb | ha4
  · refine ⟨3, _, _, rfl, rfl, by norm_num, le_of_lt ha3, hb, by norm_num, ?_⟩
    rw [interpLoop_cons_skip _ _ _ _ _ _ _ _ (show (3:ℚ)/20 < frac by linarith),
        interpLoop_cons_skip _ _ _ _ _ _ _ _ (show (3:ℚ)/10 < frac by linarith),
        interpLoop_cons_skip _ _ _ _ _ _ _ _ ha3]
    exact interpLoop_cons_pos _ _ _ _ _ _ _ _ (le_of_lt ha3) hb
  rcases le_or_lt frac (7/10) with hb | ha5
  · refine ⟨4, _, _, rfl, rfl, by norm_num, le_of_lt ha4, hb, by norm_num, ?_⟩
    rw [interpLoop_cons_skip _ _ _ _ _ _ _ _ (show (3:ℚ)/20 < frac by linarith),
        interpLoop_cons_skip _ _ _ _ _ _ _ _ (show (3:ℚ)/10 < frac by linarith),
        interpLoop_cons_skip _ _ _ _ _ _ _ _ (show (9:ℚ)/20 < frac by linarith),
        interpLoop_cons_skip _ _ _ _ _ _ _ _ ha4]
    exact interpLoop_cons_pos _ _ _ _ _ _ _ _ (le_of_lt ha4) hb
  rcases le_or_lt frac (17/20) with hb | ha6
  · refine ⟨5, _, _, rfl, rfl, by norm_num, le_of_lt ha5, hb, by norm_num, ?_⟩
    rw [interpLoop_cons_skip _ _ _ _ _ _ _ _ (show (3:ℚ)/20 < frac by linarith),
        interpLoop_cons_skip _ _ _ _ _ _ _ _ (show (3:ℚ)/10 < frac by linarith),
        interpLoop_cons_skip _ _ _ _ _ _ _ _ (show (9:ℚ)/20 < frac by linarith),
        interpLoop_cons_skip _ _ _ _ _ _ _ _ (show (11:ℚ)/20 < frac by linarith),
        interpLoop_cons_skip _ _ _ _ _ _ _ _ ha5]
    exact interpLoop_cons_pos _ _ _ _ _ _ _ _ (le_of_lt ha5) hb
  rcases le_or_lt frac (19/20) with hb | ha7
  · refine ⟨6, _, _, rfl, rfl, by norm_num, le_of_lt ha6, hb, by norm_num, ?_⟩
    rw [interpLoop_cons_skip _ _ _ _ _ _ _ _ (show (3:ℚ)/20 < frac by linarith),
        interpLoop_cons_skip _ _ _ _ _ _ _ _ (show (3:ℚ)/10 < frac by linarith),
        interpLoop_cons_skip _ _ _ _ _ _ _ _ (show (9:ℚ)/20 < frac by linarith),
        interpLoop_cons_skip _ _ _ _ _ _ _ _ (show (11:ℚ)/20 < frac by linarith),
        interpLoop_cons_skip _ _ _ _ _ _ _ _ (show (7:ℚ)/10 < frac by linarith),
        interpLoop_cons_skip _ _ _ _ _ _ _ _ ha6]
    exact interpLoop_cons_pos _ _ _ _ _ _ _ _ (le_of_lt ha6) hb
  · refine ⟨7, _, _, rfl, rfl, by norm_num, le_of_lt ha7, h1, by norm_num, ?_⟩
    rw [interpLoop_cons_skip _ _ _ _ _ _ _ _ (show (3:ℚ)/20 < frac by linarith),
        interpLoop_cons_skip _ _ _ _ _ _ _ _ (show (3:ℚ)/10 < frac by linarith),
        interpLoop_cons_skip _ _ _ _ _ _ _ _ (show (9:ℚ)/20 < frac by linarith),
        interpLoop_cons_skip _ _ _ _ _ _ _ _ (show (11:ℚ)/20 < frac by linarith),
        interpLoop_cons_skip _ _ _ _ _ _ _ _ (show (7:ℚ)/10 < frac by linarith),
        interpLoop_cons_skip _ _ _ _ _ _ _ _ (show (17:ℚ)/20 < frac by linarith),
        interpLoop_cons_skip _ _ _ _ _ _ _ _ ha7]
    exact interpLoop_cons_pos _ _ _ _ _ _ _ _ (le_of_lt ha7) h1

/-- For `0 < frac < 1` both clamp guards fail, so `interp_table` returns the
loop value with the fallback as `Option` default. -/
theorem interp_table_interior (frac : ℚ) (h0 : ¬ frac ≤ 0) (h1 : ¬ 1 ≤ frac) :
    interp_table frac = (interpLoop hull_shape_table frac).getD (1/50, 1/5) := by
  simp only [interp_table, hull_shape_table, List.headD, List.getLastD]
  norm_num [h0, h1]

/-- The linear interpolation at `t = (frac-f0)/(f1-f0) ∈ [0,1]` stays between
the bracketing values componentwise. -/
theorem lerpAt_between (e0 e1 : ℚ × ℚ × ℚ) (frac : ℚ) (hlt : e0.1 < e1.1)
    (ha : e0.1 ≤ frac) (hb : frac ≤ e1.1) :
    min e0.2.1 e1.2.1 ≤ (lerpAt e0 e1 frac).1 ∧ (lerpAt e0 e1 frac).1 ≤ max e0.2.1 e1.2.1 ∧
    min e0.2.2 e1.2.2 ≤ (lerpAt e0 e1 frac).2 ∧ (lerpAt e0 e1 frac).2 ≤ max e0.2.2 e1.2.2 := by
  obtain ⟨f0, b0, d0⟩ := e0
  obtain ⟨f1, b1, d1⟩ := e1
  simp only [lerpAt] at *
  have hdpos : 0 < f1 - f0 := by linarith
  have ht0 : 0 ≤ (frac - f0) / (f1 - f0) := div_nonneg (by linarith) (le_of_lt hdpos)
  have ht1 : (frac - f0) / (f1 - f0) ≤ 1 := (div_le_one hdpos).mpr (by linarith)
  have key : ∀ x y : ℚ, min x y ≤ x + (frac - f0) / (f1 - f0) * (y - x) ∧
      x + (frac - f0) / (f1 - f0) * (y - x) ≤ max x y := by
    intro x y
    rcases le_total x y with h | h
    · rw [min_eq_left h, max_eq_right h]
      constructor <;> nlinarith
    · rw [min_eq_right h, max_eq_left h]
      constructor <;> nlinarith
  exact ⟨(key b0 b1).1, (key b0 b1).2, (key d0 d1).1, (key d0 d1).2⟩

/-! ### Helper lemmas about the section profile -/

/-- The 13-element index range of the section generator, evaluated. -/
theorem range_thirteen : List.range 13 = [0, 1, 2, 3, 4, 5, 6, 7, 8, 9, 10, 11, 12] := by
  decide

/-! ### Helper lemmas about the waterline levels -/

/-- The waterline list is a permutation of the explicitly enumerated levels
and is sorted by `z` ascending. -/
theorem get_waterline_positions_characterization
    (hull_depth deck_level draft freeboard : ℚ) :
    (get_waterline_positions hull_depth deck_level draft freeboard).Perm
      ([("waterline", (1 : ℚ)), ("wl_below_1", -(draft / 3)), ("wl_below_2", -(2 * draft / 3))] ++
       (if freeboard / 3 < deck_level then [("wl_above_1", freeboard / 3)] else []) ++
       (if 2 * freeboard / 3 < deck_level then [("wl_above_2", 2 * freeboard / 3)] else []) ++
       [("deck", deck_level - 2)]) ∧
    (get_waterline_positions hull_depth deck_level draft freeboard).Pairwise
      (fun a b => a.2 ≤ b.2) := by
  constructor
  · simp only [get_waterline_positions]
    refine (List.mergeSort_perm _ _).trans ?_
    have h1 : -1 * (draft / 3) = -(draft / 3) := by ring
    have h2 : -2 * (draft / 3) = -(2 * draft / 3) := by ring
    have h3 : 1 * (freeboard / 3) = freeboard / 3 := by ring
    have h4 : 2 * (freeboard / 3) = 2 * freeboard / 3 := by ring
    rw [h1, h2, h3, h4]
    simp [List.append_assoc]
  · simp only [get_waterline_positions]
    exact List.Pairwise.imp (fun hab => of_decide_eq_true hab)
      (List.sorted_mergeSort
        (fun a b c hab hbc => by
          simp only [decide_eq_true_eq] at *
          exact le_trans hab hbc)
        (fun a b => by
          simp only [Bool.or_eq_true, decide_eq_true_eq]
          exact le_total a.2 b.2)
        _)

/-! ## Claims -/

/-- C1: `interp_table` clamps: for `fraction ≤ 0` it returns the first table
entry's `(beam_frac, depth_frac) = (0.60, 0.70)` unmodified, for
`fraction ≥ 1` the last entry's `(0.02, 0.20)` unmodified, and for every
`fraction ∈ [0, 1]` there is a bracketing consecutive pair of control points
such that the result equals the linear interpolation
`b0 + t*(b1-b0)` with `t = (fraction-f0)/(f1-f0)` and each component lies
between the two bracketing values (no overshoot). -/
theorem C1_interp_table_clamps_and_interpolates (frac : ℚ) :
    (frac ≤ 0 → interp_table frac = (3/5, 7/10)) ∧
    (1 ≤ frac → interp_table frac = (1/50, 1/5)) ∧
    (0 ≤ frac → frac ≤ 1 →
      ∃ j, ∃ e0 e1 : ℚ × ℚ × ℚ,
        hull_shape_table.getD j (0, 0, 0) = e0 ∧
        hull_shape_table.getD (j + 1) (0, 0, 0) = e1 ∧
        j + 1 < hull_shape_table.length ∧
        e0.1 ≤ frac ∧ frac ≤ e1.1 ∧
        interp_table frac = lerpAt e0 e1 frac ∧
        min e0.2.1 e1.2.1 ≤ (interp_table frac).1 ∧
        (interp_table frac).1 ≤ max e0.2.1 e1.2.1 ∧
        min e0.2.2 e1.2.2 ≤ (interp_table frac).2 ∧
        (interp_table frac).2 ≤ max e0.2.2 e1.2.2) := by
  refine ⟨?_, ?_, ?_⟩
  · intro h
    norm_num [interp_table, hull_shape_table, h]
  · intro h
    have h0 : ¬ frac ≤ 0 := by linarith
    norm_num [interp_table, hull_shape_table, h, h0]
  · intro h0 h1
    by_cases hc0 : frac ≤ 0
    · have : frac = 0 := le_antisymm hc0 h0
      subst this
      refine ⟨0, _, _, rfl, rfl, by norm_num [hull_shape_table], by norm_num [hull_shape_table],
        by norm_num [hull_shape_table], ?_, ?_, ?_, ?_, ?_⟩ <;>
        norm_num [interp_table, hull_shape_table, lerpAt]
    by_cases hc1 : 1 ≤ frac
    · have : frac = 1 := le_antisymm h1 hc1
      subst this
      refine ⟨7, _, _, rfl, rfl, by norm_num [hull_shape_table], by norm_num [hull_shape_table],
        by norm_num [hull_shape_table], ?_, ?_, ?_, ?_, ?_⟩ <;>
        norm_num [interp_table, hull_shape_table, lerpAt]
    obtain ⟨j, e0, e1, hg0, hg1, hlen, hle0, hle1, hlt, hloop⟩ := interpLoop_bracket frac h0 h1
    have hval : interp_table frac = lerpAt e0 e1 frac := by
      rw [interp_table_interior frac hc0 hc1, hloop, Option.getD_some]
    obtain ⟨hb1, hb2, hb3, hb4⟩ := lerpAt_between e0 e1 frac hlt hle0 hle1
    rw [← hval] at hb1 hb2 hb3 hb4
    exact ⟨j, e0, e1, hg0, hg1, hlen, hle0, hle1, hval, hb1, hb2, hb3, hb4⟩

/-- Witness for C1 at the concrete fraction `1/2`. -/
theorem C1_interp_table_clamps_and_interpolates_witness :
    (0 : ℚ) ≤ 1/2 ∧ (1/2 : ℚ) ≤ 1 ∧
    (∃ j, ∃ e0 e1 : ℚ × ℚ × ℚ,
      hull_shape_table.getD j (0, 0, 0) = e0 ∧
      hull_shape_table.getD (j + 1) (0, 0, 0) = e1 ∧
      j + 1 < hull_shape_table.length ∧
      e0.1 ≤ (1/2 : ℚ) ∧ (1/2 : ℚ) ≤ e1.1 ∧
      interp_table (1/2) = lerpAt e0 e1 (1/2) ∧
      min e0.2.1 e1.2.1 ≤ (interp_table (1/2)).1 ∧
      (interp_table (1/2)).1 ≤ max e0.2.1 e1.2.1 ∧
      min e0.2.2 e1.2.2 ≤ (interp_table (1/2)).2 ∧
      (interp_table (1/2)).2 ≤ max e0.2.2 e1.2.2) :=
  ⟨by norm_num, by norm_num,
    (C1_interp_table_clamps_and_interpolates (1/2)).2.2 (by norm_num) (by norm_num)⟩

/-- C2: with `hull_length = 6000`, `hull_beam = 2200`, `hull_depth = 900`,
`hull_thickness = 8` and 7 requested stations, the builder uses
`max(7, 11) = 11` stations; station `i` sits at `y = -3000 + (i/10)*6000`
(station 0 at `-3000`, station 10 at `+3000`); the mid-ship station (i = 5)
has fraction `1/2`, where the interpolated beam and depth fractions are both
`1.00`, giving half-width `max(1100*1.00, 16) = 1100` and half-depth
`max(900*1.00, 16) = 900`; and the station count is at least 11 regardless
of the caller's `hull_sections` value. -/
theorem C2_station_layout :
    num_sections 7 = 11 ∧
    (∀ i : ℕ, station_y 6000 11 i = -3000 + ((i : ℚ) / 10) * 6000) ∧
    station_y 6000 11 0 = -3000 ∧
    station_y 6000 11 10 = 3000 ∧
    station_frac 11 5 = 1/2 ∧
    interp_table (1/2) = (1, 1) ∧
    station_halfwidth 2200 8 (1/2) = 1100 ∧
    station_halfdepth 900 8 (1/2) = 900 ∧
    (∀ n : ℕ, 11 ≤ num_sections n) := by
  have hmid : interp_table (1/2) = (1, 1) := by
    norm_num [interp_table, hull_shape_table, interpLoop, lerpAt]
  refine ⟨by norm_num [num_sections], ?_, ?_, ?_, ?_, hmid, ?_, ?_, ?_⟩
  · intro i
    norm_num [station_y, station_frac]
  · norm_num [station_y, station_frac]
  · norm_num [station_y, station_frac]
  · norm_num [station_frac]
  · norm_num [station_halfwidth, hmid]
  · norm_num [station_halfdepth, hmid]
  · intro n
    exact le_max_right n 11

/-- C9: the trailing fallback return of `interp_table` is unreachable: the
table's fractions are sorted strictly ascending from `0` to `1`, and for
every `frac` not handled by a clamp guard the loop finds a bracketing
interval with a nonzero divisor `f1 - f0` and returns its interpolation,
which is exactly the value `interp_table` returns. -/
theorem C9_interp_table_fallback_unreachable :
    (List.Chain' (fun a b : ℚ × ℚ × ℚ => a.1 < b.1) hull_shape_table ∧
     (hull_shape_table.headD (0, 0, 0)).1 = 0 ∧
     (hull_shape_table.getLastD (0, 0, 0)).1 = 1) ∧
    ∀ frac : ℚ, ¬ frac ≤ 0 → ¬ 1 ≤ frac →
      ∃ e0 e1 : ℚ × ℚ × ℚ, e0.1 < e1.1 ∧
        interpLoop hull_shape_table frac = some (lerpAt e0 e1 frac) ∧
        interp_table frac = lerpAt e0 e1 frac := by
  constructor
  · refine ⟨?_, by norm_num [hull_shape_table], by norm_num [hull_shape_table]⟩
    norm_num [hull_shape_table, List.chain'_cons]
  · intro frac hc0 hc1
    obtain ⟨j, e0, e1, _, _, _, _, _, hlt, hloop⟩ :=
      interpLoop_bracket frac (by linarith [not_le.mp hc0]) (by linarith [not_le.mp hc1])
    refine ⟨e0, e1, hlt, hloop, ?_⟩
    rw [interp_table_interior frac hc0 hc1, hloop, Option.getD_some]

/-- Witness for C9 at the concrete fraction `1/2`. -/
theorem C9_interp_table_fallback_unreachable_witness :
    ¬ (1/2 : ℚ) ≤ 0 ∧ ¬ (1 : ℚ) ≤ 1/2 ∧
    (∃ e0 e1 : ℚ × ℚ × ℚ, e0.1 < e1.1 ∧
      interpLoop hull_shape_table (1/2) = some (lerpAt e0 e1 (1/2)) ∧
      interp_table (1/2) = lerpAt e0 e1 (1/2)) :=
  ⟨by norm_num, by norm_num,
    C9_interp_table_fallback_unreachable.2 (1/2) (by norm_num) (by norm_num)⟩

/-- C4: `slice_shapes_safely` processes the shapes one at a time in order;
a shape whose slice raises is skipped and the rest are still processed; the
result is the concatenation, in shape order, of the successful per-shape
wire lists.  An empty result is an ordinary return value of the total
function (the embedding returns a list, never an error). -/
theorem C4_slice_shapes_safely_concat (σ ω : Type)
    (slice : σ → Except String (List ω)) (shapes : List σ) :
    slice_shapes_safely slice shapes =
      (shapes.map (fun s =>
        match slice s with
        | Except.ok wires => wires
        | Except.error _ => [])).flatten := by
  suffices h : ∀ (l : List σ) (acc : List ω),
      l.foldl
        (fun all_wires shape =>
          match slice shape with
          | Except.ok wires => if wires.isEmpty then all_wires else all_wires ++ wires
          | Except.error _ => all_wires) acc =
      acc ++ (l.map (fun s =>
        match slice s with
        | Except.ok wires => wires
        | Except.error _ => [])).flatten by
    simpa [slice_shapes_safely] using h shapes []
  intro l
  induction l with
  | nil => intro acc; simp
  | cons s t ih =>
    intro acc
    simp only [List.foldl_cons, List.map_cons, List.flatten_cons]
    cases hs : slice s with
    | ok w =>
      cases w with
      | nil => simpa using ih acc
      | cons a as =>
        simp only [List.isEmpty_cons, Bool.false_eq_true, if_false]
        rw [ih, List.append_assoc]
    | error e => simpa using ih acc

/-- C5: the scale-bar bucket is a pure step function of the larger drawing
extent in millimetres: `>5000 → (1000, "1 m")`, `>2000 → (500, "0.5 m")`,
`>500 → (200, "200 mm")`, otherwise `(100, "100 mm")`; in particular the
extents 6000, 3000, 1000 and 300 select 1 m, 0.5 m, 200 mm and 100 mm. -/
theorem C5_scale_bar_bucket_step (extent : ℚ) :
    (5000 < extent → scale_bar_bucket extent = (1000, "1 m")) ∧
    (2000 < extent → extent ≤ 5000 → scale_bar_bucket extent = (500, "0.5 m")) ∧
    (500 < extent → extent ≤ 2000 → scale_bar_bucket extent = (200, "200 mm")) ∧
    (extent ≤ 500 → scale_bar_bucket extent = (100, "100 mm")) ∧
    scale_bar_bucket 6000 = (1000, "1 m") ∧
    scale_bar_bucket 3000 = (500, "0.5 m") ∧
    scale_bar_bucket 1000 = (200, "200 mm") ∧
    scale_bar_bucket 300 = (100, "100 mm") := by
  refine ⟨?_, ?_, ?_, ?_, ?_, ?_, ?_, ?_⟩
  · intro h
    simp [scale_bar_bucket, h]
  · intro h2 h5
    simp [scale_bar_bucket, h2, show ¬ (5000 : ℚ) < extent by linarith]
  · intro h5 h2
    simp [scale_bar_bucket, h5, show ¬ (5000 : ℚ) < extent by linarith,
      show ¬ (2000 : ℚ) < extent by linarith]
  · intro h
    simp [scale_bar_bucket, show ¬ (5000 : ℚ) < extent by linarith,
      show ¬ (2000 : ℚ) < extent by linarith, show ¬ (500 : ℚ) < extent by linarith]
  · norm_num [scale_bar_bucket]
  · norm_num [scale_bar_bucket]
  · norm_num [scale_bar_bucket]
  · norm_num [scale_bar_bucket]

/-- Witness for C5 at the concrete extent 6000. -/
theorem C5_scale_bar_bucket_step_witness :
    (5000 : ℚ) < 6000 ∧ scale_bar_bucket 6000 = (1000, "1 m") :=
  ⟨by norm_num, (C5_scale_bar_bucket_step 6000).1 (by norm_num)⟩

/-- C6: `map_point` is a pure function of the point and the view name:
view `YZ` gives `(y, -z)`, `YX` gives `(y, -x)`, `XZ` gives `(x, -z)`,
`XY` gives `(x, -y)`, any unknown view name defaults to `(x, -y)`, and the
second returned coordinate is always a sign-flipped source axis. -/
theorem C6_map_point_views (p : Pt) :
    map_point "YZ" p = (p.y, -p.z) ∧
    map_point "YX" p = (p.y, -p.x) ∧
    map_point "XZ" p = (p.x, -p.z) ∧
    map_point "XY" p = (p.x, -p.y) ∧
    (∀ view : String, view ≠ "XZ" → view ≠ "XY" → view ≠ "YX" → view ≠ "YZ" →
      map_point view p = (p.x, -p.y)) ∧
    (∀ view : String, (map_point view p).2 = -p.x ∨ (map_point view p).2 = -p.y ∨
      (map_point view p).2 = -p.z) := by
  refine ⟨by simp [map_point], by simp [map_point], by simp [map_point], by simp [map_point],
    ?_, ?_⟩
  · intro v h1 h2 h3 h4
    simp [map_point, h1, h2, h3, h4]
  · intro v
    by_cases h1 : v = "XZ"
    · simp [map_point, h1]
    by_cases h2 : v = "XY"
    · simp [map_point, h1, h2]
    by_cases h3 : v = "YX"
    · simp [map_point, h1, h2, h3]
    by_cases h4 : v = "YZ"
    · simp [map_point, h1, h2, h3, h4]
    · simp [map_point, h1, h2, h3, h4]

/-- Witness for C6 at the point `(1, 2, 3)` and the unknown view `"QQ"`. -/
theorem C6_map_point_views_witness :
    ("QQ" : String) ≠ "XZ" ∧ ("QQ" : String) ≠ "XY" ∧
    ("QQ" : String) ≠ "YX" ∧ ("QQ" : String) ≠ "YZ" ∧
    map_point "QQ" ⟨1, 2, 3⟩ = (1, -2) :=
  ⟨by decide, by decide, by decide, by decide,
    (C6_map_point_views ⟨1, 2, 3⟩).2.2.2.2.1 "QQ" (by decide) (by decide) (by decide) (by decide)⟩

/-- C8: when no points are retained (empty wire list, or everything removed
by the `clip_z` filter) the renderer returns `none` — no output artifact
and, the embedding being total, no exception; when it does produce output,
both extents are at least `0.1` and the scale divisor `max extent_x
extent_y` is nonzero, so `scale = target_size / max(extent_x, extent_y)` is
a well-defined division. -/
theorem C8_export_empty_input_and_extent_guard (view : String) (target_size : ℚ)
    (clip_z : Option ℚ) (wires : List Wire) :
    (all_retained_points clip_z wires = [] →
      export_wires_to_svg view target_size clip_z wires = none) ∧
    export_wires_to_svg view target_size clip_z [] = none ∧
    (∀ g : SvgGeom, export_wires_to_svg view target_size clip_z wires = some g →
      1/10 ≤ g.extent_x ∧ 1/10 ≤ g.extent_y ∧
      max g.extent_x g.extent_y ≠ 0 ∧
      g.scale = target_size / max g.extent_x g.extent_y) := by
  refine ⟨?_, ?_, ?_⟩
  · intro h
    simp [export_wires_to_svg, h]
  · simp [export_wires_to_svg, all_retained_points]
  · intro g hg
    rw [export_wires_to_svg] at hg
    cases hpts : all_retained_points clip_z wires with
    | nil => rw [hpts] at hg; exact absurd hg (by simp)
    | cons p ps =>
      rw [hpts] at hg
      simp only [Option.some.injEq] at hg
      subst hg
      refine ⟨le_max_right _ _, le_max_right _ _, ?_, rfl⟩
      exact ne_of_gt (lt_of_lt_of_le (show (0 : ℚ) < 1/10 by norm_num)
        (le_trans (le_max_right _ _) (le_max_left _ _)))

/-- Witness for C8: the empty wire list retains no points and produces no
output. -/
theorem C8_export_empty_input_and_extent_guard_witness :
    all_retained_points none [] = ([] : List Pt) ∧
    export_wires_to_svg "YZ" 800 none [] = none :=
  ⟨rfl, (C8_export_empty_input_and_extent_guard "YZ" 800 none []).1 rfl⟩

/-- C3 counterexample: the claim places the design waterline at `z = 0`,
but the source appends `("waterline", 1.0)` (a one-millimetre offset off
the exact plane, like the other slice offsets in the file).  At
`hull_depth = 900`, `deck_level = 900`, `draft = 300`, `freeboard = 600`
(all positive) the returned list has no entry at `z = 0` and carries the
waterline at `z = 1`. -/
theorem C3_waterline_at_zero_false :
    ("waterline", (0 : ℚ)) ∉ get_waterline_positions 900 900 300 600 ∧
    ("waterline", (1 : ℚ)) ∈ get_waterline_positions 900 900 300 600 := by
  have h := (get_waterline_positions_characterization 900 900 300 600).1
  norm_num at h
  constructor
  · rw [h.mem_iff]
    norm_num
  · rw [h.mem_iff]
    norm_num

/-- C3 (amended): `get_waterline_positions` returns exactly the fixed set
of slice levels — the waterline entry at `z = 1` (slightly offset off the
exact plane, not `z = 0`), two levels below the waterline at `-draft/3` and
`-2*draft/3`, up to two levels above at `freeboard/3` and `2*freeboard/3`
(each included only if strictly below `deck_level`), and the deck level
offset slightly inward at `deck_level - 2` — and the returned list is
sorted by `z` ascending. -/
theorem C3_waterline_positions (hull_depth deck_level draft freeboard : ℚ) :
    (get_waterline_positions hull_depth deck_level draft freeboard).Perm
      ([("waterline", (1 : ℚ)), ("wl_below_1", -(draft / 3)), ("wl_below_2", -(2 * draft / 3))] ++
       (if freeboard / 3 < deck_level then [("wl_above_1", freeboard / 3)] else []) ++
       (if 2 * freeboard / 3 < deck_level then [("wl_above_2", 2 * freeboard / 3)] else []) ++
       [("deck", deck_level - 2)]) ∧
    (get_waterline_positions hull_depth deck_level draft freeboard).Pairwise
      (fun a b => a.2 ≤ b.2) :=
  get_waterline_positions_characterization hull_depth deck_level draft freeboard

/-- C7 counterexample: the claim asserts monotonically non-increasing `|z|`
from sheer to keel, but `|z|` grows from `0` at the sheer to `hd` at the
keel: at `hw = 1100`, `hd = 900` (with the sine factor instantiated, which
the `z` components do not use), the step from the sheer point (index 0,
`z = 0`) to its neighbour (index 1, `z = -75`) already increases `|z|`. -/
theorem C7_abs_z_nonincreasing_false :
    ¬ (|((hull_section_points (fun t => t) 1100 900).getD 1 (0, 0)).2| ≤
       |((hull_section_points (fun t => t) 1100 900).getD 0 (0, 0)).2|) := by
  norm_num [hull_section_points, range_thirteen]

/-- C7 (amended): for every sine-like factor `s` with `s 0 = 0` and every
valid `(hw, hd)` with `hd ≥ 0`, `hull_section_points` is a single
port-to-starboard sequence of `2*12+1 = 25` points, symmetric under
`x → -x` (negating every `x` and reversing the order reproduces the list),
with monotonically non-decreasing `|z|` from sheer to keel on each side
(equivalently non-increasing from keel to sheer), sheer points at `z = 0`
(indices 0 and 24), the single keel point `(0, -hd)` at index 12, and the
inner profile's half-width and half-depth
`(max (hw - thickness) thickness, max (hd - thickness) thickness)` each at
least `thickness`. -/
theorem C7_section_profile (s : ℚ → ℚ) (hw hd thickness : ℚ)
    (h0 : s 0 = 0) (hhd : 0 ≤ hd) :
    (hull_section_points s hw hd).length = 25 ∧
    ((hull_section_points s hw hd).map (fun q => (-q.1, q.2))).reverse =
      hull_section_points s hw hd ∧
    ((hull_section_points s hw hd).getD 0 (0, 0)).2 = 0 ∧
    ((hull_section_points s hw hd).getD 24 (0, 0)).2 = 0 ∧
    (hull_section_points s hw hd).getD 12 (0, 0) = (0, -hd) ∧
    (∀ i : ℕ, i < 12 →
      |((hull_section_points s hw hd).getD i (0, 0)).2| ≤
      |((hull_section_points s hw hd).getD (i + 1) (0, 0)).2|) ∧
    (∀ i : ℕ, 12 ≤ i → i < 24 →
      |((hull_section_points s hw hd).getD (i + 1) (0, 0)).2| ≤
      |((hull_section_points s hw hd).getD i (0, 0)).2|) ∧
    thickness ≤ (hull_section_inner hw hd thickness).1 ∧
    thickness ≤ (hull_section_inner hw hd thickness).2 := by
  have habs : ∀ c1 c2 : ℚ, 0 ≤ c1 → c1 ≤ c2 → |(-hd * c1)| ≤ |(-hd * c2)| := by
    intro c1 c2 h1 h2
    rw [abs_of_nonpos (by nlinarith), abs_of_nonpos (by nlinarith)]
    nlinarith
  refine ⟨?_, ?_, ?_, ?_, ?_, ?_, ?_, ?_, ?_⟩
  · simp [hull_section_points, range_thirteen]
  · simp [hull_section_points, range_thirteen, h0]
  · norm_num [hull_section_points, range_thirteen]
  · norm_num [hull_section_points, range_thirteen]
  · norm_num [hull_section_points, range_thirteen, h0]
  · intro i hi
    interval_cases i <;>
      · simp only [hull_section_points, range_thirteen, List.map_cons, List.map_nil,
          List.drop_succ_cons, List.drop_zero, List.reverse_cons, List.reverse_nil,
          List.map_append, List.nil_append, List.cons_append, List.append_nil,
          List.getD_cons_zero, List.getD_cons_succ]
        exact habs _ _ (by norm_num) (by norm_num)
  · intro i hi12 hi
    interval_cases i <;>
      · simp only [hull_section_points, range_thirteen, List.map_cons, List.map_nil,
          List.drop_succ_cons, List.drop_zero, List.reverse_cons, List.reverse_nil,
          List.map_append, List.nil_append, List.cons_append, List.append_nil,
          List.getD_cons_zero, List.getD_cons_succ]
        exact habs _ _ (by norm_num) (by norm_num)
  · exact le_max_right _ _
  · exact le_max_right _ _

/-- Witness for C7 with the identity as the sine-like factor and the
concrete mid-ship dimensions `hw = 1100`, `hd = 900`, `thickness = 8`. -/
theorem C7_section_profile_witness :
    (fun t : ℚ => t) 0 = 0 ∧ (0 : ℚ) ≤ 900 ∧
    (hull_section_points (fun t => t) 1100 900).length = 25 :=
  ⟨rfl, by norm_num,
    (C7_section_profile (fun t => t) 1100 900 8 rfl (by norm_num)).1⟩

/-- C10 counterexample: the claim says the returned dictionary binds every
key of `base` to its original value, for every base mapping with the
required keys.  A base mapping that also carries a `"hull_draft"` entry —
a key `compute_derived` assigns — is overwritten: with
`("hull_draft", 12345)` in the base, the call succeeds and returns
`hull_draft = 300` (`hull_depth - freeboard`), not `12345`. -/
theorem C10_base_key_overwritten :
    dmem base_with_hull_draft "hull_draft" = true ∧
    dget base_with_hull_draft "hull_draft" = some 12345 ∧
    (compute_derived (fun _ => 1) base_with_hull_draft).isSome = true ∧
    dget ((compute_derived (fun _ => 1) base_with_hull_draft).getD []) "hull_draft" =
      some 300 := by
  refine ⟨?_, ?_, ?_, ?_⟩
  · simp [dmem, base_with_hull_draft, base_required]
  · simp [dget, base_with_hull_draft, base_required, List.find?_cons]
  · simp only [compute_derived, dget, base_with_hull_draft, base_required,
      List.cons_append, List.nil_append, List.find?_cons, String.reduceEq,
      decide_False, decide_True]
    norm_num
  · simp only [compute_derived, dget, base_with_hull_draft, base_required,
      List.cons_append, List.nil_append, List.find?_cons, String.reduceEq,
      decide_False, decide_True]
    norm_num
    refine ⟨"hull_draft", ?_⟩
    simp [dset, List.find?_cons]

/-- C10 (amended): `compute_derived` is pure (the embedding takes the base
dictionary and returns a new one, so the caller's mapping is unchanged by
construction), and for every base mapping with pairwise-distinct keys none
of which collides with a derived output name, whenever the call returns a
dictionary it binds every key of `base` to its original value, and the
`"ballast_ratio"` key is present in the result only when the computed
`displacement_estimate_kg` (as stored in the result) is strictly
positive. -/
theorem C10_compute_derived_preserves_base (rpow23 : ℚ → ℚ) (base : Dict) (r : Dict)
    (hn : (base.map Prod.fst).Nodup)
    (hder : ∀ p ∈ base, p.1 ∉ derivedNames)
    (hr : compute_derived rpow23 base = some r) :
    (∀ k v, (k, v) ∈ base → dget r k = some v) ∧
    (dmem r "ballast_ratio" = true →
      0 < (dget r "displacement_estimate_kg").getD 0) := by
  rw [compute_derived] at hr
  split at hr
  case h_2 => exact Option.noConfusion hr
  simp only [] at hr
  split at hr
  case isTrue => exact Option.noConfusion hr
  split at hr
  case isTrue => exact Option.noConfusion hr
  have hrr := (Option.some.inj hr).symm
  subst hrr
  constructor
  · intro k v hkv
    have hk := hder _ hkv
    simp only [derivedNames, List.mem_cons, List.not_mem_nil, or_false, not_or] at hk
    obtain ⟨hk1, hk2, hk3, hk4, hk5, hk6, hk7, hk8, hk9, hk10, hk11, hk12, hk13, hk14,
      hk15, hk16⟩ := hk
    rw [dget_dset, if_neg hk16]
    split
    · simp [dget_dset, hk1, hk2, hk3, hk4, hk5, hk6, hk7, hk8, hk9, hk10, hk11, hk12,
        hk13, hk14, hk15]
      exact dget_eq_some_of_mem base k v hn hkv
    · simp [dget_dset, hk1, hk2, hk3, hk4, hk5, hk6, hk7, hk8, hk9, hk10, hk11, hk12,
        hk13, hk14, hk15]
      exact dget_eq_some_of_mem base k v hn hkv
  · intro hbal
    rw [dmem_dset] at hbal
    simp only [String.reduceEq, if_false] at hbal
    split at hbal
    · rename_i hpos
      rw [dget_dset]
      simp only [String.reduceEq, if_false]
      rw [if_pos hpos]
      simp [dget_dset]
      linarith [hpos]
    · rename_i hneg
      simp only [dmem_dset, String.reduceEq, if_false] at hbal
      obtain ⟨v0, hv0⟩ := (dmem_true_iff base _).mp hbal
      exact absurd (by simp [derivedNames]) (not_not_intro (hder _ hv0))

/-- Witness for C10 with the thirteen required base parameters and a
constant stand-in for the float power. -/
theorem C10_compute_derived_preserves_base_witness :
    (base_required.map Prod.fst).Nodup ∧
    (∀ p ∈ base_required, p.1 ∉ derivedNames) ∧
    dget ((compute_derived (fun _ => 1) base_required).getD []) "hull_length" =
      some 6000 := by
  have hsome : (compute_derived (fun _ => 1) base_required).isSome = true := by
    simp only [compute_derived, dget, base_required, List.find?_cons, String.reduceEq,
      decide_False, decide_True]
    norm_num
  obtain ⟨x, hx⟩ := Option.isSome_iff_exists.mp hsome
  have hr : compute_derived (fun _ => (1 : ℚ)) base_required =
      some ((compute_derived (fun _ => (1 : ℚ)) base_required).getD []) := by
    rw [hx]
    rfl
  refine ⟨by decide, by decide, ?_⟩
  exact (C10_compute_derived_preserves_base (fun _ => 1) base_required _
    (by decide) (by decide) hr).1 "hull_length" 6000 (by simp [base_required])

end Keelboat
